import Mathlib

/-!
Shallow embedding of the `IotPaymentFhe` Solidity contract
(`contracts/IoT_Payment_FHE.sol`) and proofs about its batch-payment /
decryption-request protocol.

Modelling conventions:
* Addresses, `uint256`, `uint32` and `bytes32` values are `Nat`.
* An `euint32` ciphertext handle is modelled by its 32-bit plaintext value,
  with `FHE.add` as addition modulo `2 ^ 32` and `FHE.asEuint32` as reduction
  modulo `2 ^ 32` (homomorphic addition on `euint32` modelled as 32-bit
  integer addition).  `FHE.toBytes32` is then the identity on handles.
* `keccak256(abi.encode(cts, address(this)))` is modelled by a deterministic
  injective encoding of the ciphertext list together with the contract's own
  address (`hashCiphertexts`).
* `FHE.checkSignatures` is an opaque oracle capability: it is passed to the
  callback as an explicit function parameter `sig`.
* A reverting Solidity call is `Except.error e`: it produces no state change
  and emits no event.  A successful call is `Except.ok` of the new state
  (the decryption callback additionally returns the decoded `totalAmount`
  that it emits in `DecryptionCompleted`).
* Solidity mapping reads of never-written keys yield zero-initialised
  values; mappings are modelled as total functions (`Nat → Nat`,
  `Nat → Bool`) except `decryptionContexts`, which is `Nat → Option _` so
  that "no context was ever stored" is expressible; the contract's read of
  it goes through `Option.getD` of the zero-initialised struct, exactly as
  the EVM mapping does.
-/

/-- The 32-bit modulus used by `euint32` arithmetic. -/
def M32 : Nat := 2 ^ 32

namespace FHE

/-- `FHE.asEuint32 x`: trivial encryption of `x`, modelled by its 32-bit
plaintext value. -/
def asEuint32 (x : Nat) : Nat := x % M32

/-- `FHE.add`: homomorphic addition on `euint32`, modelled as addition
modulo `2 ^ 32`. -/
def add (a b : Nat) : Nat := (a + b) % M32

/-- `FHE.toBytes32`: the canonical `bytes32` representation of a handle,
modelled as the identity. -/
def toBytes32 (c : Nat) : Nat := c

end FHE

/-- The `Payment` struct. -/
structure Payment where
  provider : Nat
  encryptedAmount : Nat
  submissionTimestamp : Nat
deriving Repr, DecidableEq

/-- The `Batch` struct. -/
structure Batch where
  id : Nat
  totalEncryptedAmount : Nat
  closed : Bool
deriving Repr, DecidableEq

/-- The `DecryptionContext` struct. -/
structure DecryptionContext where
  batchId : Nat
  stateHash : Nat
  processed : Bool
deriving Repr, DecidableEq

/-- The contract's errors, as declared in the source
(`NotOwner`, `NotProvider`, `Paused`, `CooldownActive`,
`BatchClosedOrNonexistent`, `InvalidBatch`, `ReplayAttempt`,
`StateMismatch`, `InvalidProof`).  There is no other error. -/
inductive Err where
  | notOwner
  | notProvider
  | paused
  | cooldownActive
  | batchClosedOrNonexistent
  | invalidBatch
  | replayAttempt
  | stateMismatch
  | invalidProof
deriving Repr, DecidableEq

/-- The contract's storage, plus its own address `selfAddr`
(`address(this)`, fixed at deployment). -/
structure State where
  selfAddr : Nat
  owner : Nat
  providers : Nat → Bool
  paused : Bool
  cooldownSeconds : Nat
  lastSubmissionTime : Nat → Nat
  lastDecryptionRequestTime : Nat → Nat
  payments : List Payment
  batches : List Batch
  decryptionContexts : Nat → Option DecryptionContext

/-- Pointwise map update (Solidity `m[k] = v`). -/
def store {α : Type} (f : Nat → α) (k : Nat) (v : α) : Nat → α :=
  fun x => if x = k then v else f x

/-- The constructor: `owner = msg.sender`, `cooldownSeconds = 60`,
everything else zero-initialised. -/
def initState (deployer self : Nat) : State where
  selfAddr := self
  owner := deployer
  providers := fun _ => false
  paused := false
  cooldownSeconds := 60
  lastSubmissionTime := fun _ => 0
  lastDecryptionRequestTime := fun _ => 0
  payments := []
  batches := []
  decryptionContexts := fun _ => none

/-- `_hashCiphertexts`: `keccak256(abi.encode(cts, address(this)))`,
modelled by a deterministic injective pairing of the ciphertext list with
the contract address. -/
def hashCiphertexts (cts : List Nat) (self : Nat) : Nat :=
  Nat.pair (cts.foldr Nat.pair 0) self

/-- `transferOwnership`: owner-only owner replacement. -/
def transferOwnership (s : State) (sender newOwner : Nat) : Except Err State :=
  if sender ≠ s.owner then .error .notOwner
  else .ok { s with owner := newOwner }

/-- `addProvider`: owner-only provider registration. -/
def addProvider (s : State) (sender provider : Nat) : Except Err State :=
  if sender ≠ s.owner then .error .notOwner
  else .ok { s with providers := store s.providers provider true }

/-- `removeProvider`: owner-only provider removal. -/
def removeProvider (s : State) (sender provider : Nat) : Except Err State :=
  if sender ≠ s.owner then .error .notOwner
  else .ok { s with providers := store s.providers provider false }

/-- `setPaused`: owner-only pause toggle. -/
def setPaused (s : State) (sender : Nat) (b : Bool) : Except Err State :=
  if sender ≠ s.owner then .error .notOwner
  else .ok { s with paused := b }

/-- `setCooldownSeconds`: owner-only cooldown update. -/
def setCooldownSeconds (s : State) (sender v : Nat) : Except Err State :=
  if sender ≠ s.owner then .error .notOwner
  else .ok { s with cooldownSeconds := v }

/-- `openBatch`: modifiers `onlyProvider whenNotPaused` (in that order),
then the submission-class cooldown check, then push of a fresh open batch
with aggregate `FHE.asEuint32(0)`.  No check that the previous batch is
closed. -/
def openBatch (s : State) (sender now : Nat) : Except Err State :=
  if s.providers sender = false then .error .notProvider
  else if s.paused then .error .paused
  else if now < s.lastSubmissionTime sender + s.cooldownSeconds then
    .error .cooldownActive
  else
    let s1 := { s with lastSubmissionTime := store s.lastSubmissionTime sender now }
    let batchId := s1.batches.length
    .ok { s1 with
      batches := s1.batches ++
        [({ id := batchId, totalEncryptedAmount := FHE.asEuint32 0, closed := false } : Batch)] }

/-- `submitPayment`: modifiers `onlyProvider whenNotPaused`, the
submission-class cooldown check and `lastSubmissionTime` update, then the
open-latest-batch check, ledger append, and homomorphic accumulation into
the latest batch. -/
def submitPayment (s : State) (sender now encryptedAmount : Nat) : Except Err State :=
  if s.providers sender = false then .error .notProvider
  else if s.paused then .error .paused
  else if now < s.lastSubmissionTime sender + s.cooldownSeconds then
    .error .cooldownActive
  else
    let s1 := { s with lastSubmissionTime := store s.lastSubmissionTime sender now }
    match s1.batches[s1.batches.length - 1]? with
    | none => .error .batchClosedOrNonexistent
    | some currentBatch =>
      if currentBatch.closed then .error .batchClosedOrNonexistent
      else
        let userEncryptedAmount := FHE.asEuint32 encryptedAmount
        let s2 := { s1 with
          payments := s1.payments ++
            [({ provider := sender, encryptedAmount := userEncryptedAmount,
                submissionTimestamp := now } : Payment)] }
        .ok { s2 with
          batches := s2.batches.set (s2.batches.length - 1)
            { currentBatch with
              totalEncryptedAmount := FHE.add currentBatch.totalEncryptedAmount userEncryptedAmount } }

/-- `closeBatch`: modifiers `onlyProvider whenNotPaused` (no cooldown),
then the open-latest-batch check, then `closed := true` on the latest
batch. -/
def closeBatch (s : State) (sender : Nat) : Except Err State :=
  if s.providers sender = false then .error .notProvider
  else if s.paused then .error .paused
  else
    match s.batches[s.batches.length - 1]? with
    | none => .error .batchClosedOrNonexistent
    | some currentBatch =>
      if currentBatch.closed then .error .batchClosedOrNonexistent
      else
        .ok { s with
          batches := s.batches.set (s.batches.length - 1) { currentBatch with closed := true } }

/-- `requestBatchTotalDecryption`: modifier `whenNotPaused` only (any
caller), the decryption-request-class cooldown check and
`lastDecryptionRequestTime` update, the existing-closed-batch check, then
storage of a fresh `DecryptionContext` under the oracle-supplied
`requestId` with the state fingerprint of the batch aggregate.
`requestId` is the value returned by `FHE.requestDecryption`, supplied
here by the environment. -/
def requestBatchTotalDecryption (s : State) (sender now batchId requestId : Nat) :
    Except Err State :=
  if s.paused then .error .paused
  else if now < s.lastDecryptionRequestTime sender + s.cooldownSeconds then
    .error .cooldownActive
  else
    let s1 := { s with
      lastDecryptionRequestTime := store s.lastDecryptionRequestTime sender now }
    match s1.batches[batchId]? with
    | none => .error .invalidBatch
    | some b =>
      if b.closed = false then .error .invalidBatch
      else
        let stateHash :=
          hashCiphertexts [FHE.toBytes32 b.totalEncryptedAmount] s1.selfAddr
        .ok { s1 with
          decryptionContexts := store s1.decryptionContexts requestId
            (some { batchId := batchId, stateHash := stateHash, processed := false }) }

/-- `myCallback(requestId, cleartexts, proof)`: an open entry point with no
modifiers.  `sig` is the opaque `FHE.checkSignatures` oracle capability;
`cleartexts` is modelled as the decoded `uint256` total.  The mapping read
`decryptionContexts[requestId]` yields the zero-initialised struct for a
never-stored key.  On success it returns the new state together with the
`totalAmount` emitted in `DecryptionCompleted`. -/
def myCallback (sig : Nat → Nat → Nat → Bool) (s : State)
    (requestId cleartexts proof : Nat) : Except Err (State × Nat) :=
  let ctx := (s.decryptionContexts requestId).getD
    { batchId := 0, stateHash := 0, processed := false }
  if ctx.processed then .error .replayAttempt
  else
    match s.batches[ctx.batchId]? with
    | none => .error .invalidBatch
    | some b =>
      if b.closed = false then .error .invalidBatch
      else
        let currentHash :=
          hashCiphertexts [FHE.toBytes32 b.totalEncryptedAmount] s.selfAddr
        if currentHash ≠ ctx.stateHash then .error .stateMismatch
        else if sig requestId cleartexts proof = false then .error .invalidProof
        else
          let totalAmount := cleartexts
          .ok ({ s with
            decryptionContexts := store s.decryptionContexts requestId
              (some { ctx with processed := true }) }, totalAmount)

/-- One external transaction against the contract. -/
inductive Op where
  | transferOwnership (sender newOwner : Nat)
  | addProvider (sender provider : Nat)
  | removeProvider (sender provider : Nat)
  | setPaused (sender : Nat) (b : Bool)
  | setCooldownSeconds (sender v : Nat)
  | openBatch (sender now : Nat)
  | submitPayment (sender now amount : Nat)
  | closeBatch (sender : Nat)
  | requestDecryption (sender now batchId requestId : Nat)
  | callback (requestId cleartexts proof : Nat)
deriving Repr, DecidableEq

/-- Dispatch one transaction. -/
def step (sig : Nat → Nat → Nat → Bool) (s : State) : Op → Except Err State
  | .transferOwnership sender newOwner => transferOwnership s sender newOwner
  | .addProvider sender p => addProvider s sender p
  | .removeProvider sender p => removeProvider s sender p
  | .setPaused sender b => setPaused s sender b
  | .setCooldownSeconds sender v => setCooldownSeconds s sender v
  | .openBatch sender now => openBatch s sender now
  | .submitPayment sender now amount => submitPayment s sender now amount
  | .closeBatch sender => closeBatch s sender
  | .requestDecryption sender now batchId requestId =>
      requestBatchTotalDecryption s sender now batchId requestId
  | .callback requestId cleartexts proof =>
      (myCallback sig s requestId cleartexts proof).map Prod.fst

/-- A reverted transaction leaves the chain state unchanged; the chain
then continues. -/
def exec (sig : Nat → Nat → Nat → Bool) (s : State) (op : Op) : State :=
  match step sig s op with
  | .ok s' => s'
  | .error _ => s

/-- Run a sequence of transactions, reverted ones leaving the state
unchanged. -/
def run (sig : Nat → Nat → Nat → Bool) (s : State) (ops : List Op) : State :=
  ops.foldl (exec sig) s

/-- Run a sequence of transactions, failing if any of them reverts. -/
def runE (sig : Nat → Nat → Nat → Bool) (s : State) (ops : List Op) :
    Except Err State :=
  ops.foldlM (step sig) s

/-- The latest batch's aggregate ciphertext (0 when no batch exists). -/
def lastTotal (s : State) : Nat :=
  ((s.batches[s.batches.length - 1]?).map Batch.totalEncryptedAmount).getD 0

/-! ### Basic facts about map updates -/

theorem store_same {α : Type} (f : Nat → α) (k : Nat) (v : α) :
    store f k v k = v := by
  simp [store]

theorem store_other {α : Type} (f : Nat → α) (k x : Nat) (v : α) (h : x ≠ k) :
    store f k v x = f x := by
  simp [store, h]

/-! ### C2: replay protection of the decryption callback -/

/-- C2: once a `DecryptionContext` has `processed = true`, any further
`myCallback` invocation with that `requestId` fails with `ReplayAttempt`
and leaves the state unchanged (hence emits no second
`DecryptionCompleted` and reports no `totalAmount`). -/
theorem callback_replay_rejected (sig : Nat → Nat → Nat → Bool) (s : State)
    (requestId cleartexts proof : Nat) (ctx : DecryptionContext)
    (hctx : s.decryptionContexts requestId = some ctx)
    (hproc : ctx.processed = true) :
    myCallback sig s requestId cleartexts proof = .error .replayAttempt ∧
    exec sig s (.callback requestId cleartexts proof) = s := by
  have h1 : myCallback sig s requestId cleartexts proof = .error .replayAttempt := by
    unfold myCallback
    rw [hctx]
    simp [hproc]
  exact ⟨h1, by simp [exec, step, h1, Except.map]⟩

/-! ### C3: state-fingerprint binding of the decryption callback -/

/-- C3: for a known, unprocessed `requestId` whose context references an
existing closed batch, `myCallback` recomputes the fingerprint of the
batch's current aggregate with `hashCiphertexts` — the same function used
at request time — and fails with `StateMismatch` (changing no state)
whenever it differs from the stored fingerprint; conversely every
successful invocation had an equal fingerprint and a verifying proof and
sets `processed := true`. -/
theorem callback_state_binding (sig : Nat → Nat → Nat → Bool) (s : State)
    (requestId cleartexts proof : Nat) (ctx : DecryptionContext) (b : Batch)
    (hctx : s.decryptionContexts requestId = some ctx)
    (hproc : ctx.processed = false)
    (hb : s.batches[ctx.batchId]? = some b)
    (hclosed : b.closed = true) :
    (hashCiphertexts [FHE.toBytes32 b.totalEncryptedAmount] s.selfAddr ≠ ctx.stateHash →
      myCallback sig s requestId cleartexts proof = .error .stateMismatch ∧
      exec sig s (.callback requestId cleartexts proof) = s) ∧
    (∀ s' total, myCallback sig s requestId cleartexts proof = .ok (s', total) →
      hashCiphertexts [FHE.toBytes32 b.totalEncryptedAmount] s.selfAddr = ctx.stateHash ∧
      sig requestId cleartexts proof = true ∧
      s'.decryptionContexts requestId = some { ctx with processed := true }) := by
  have hcb : myCallback sig s requestId cleartexts proof =
      (if hashCiphertexts [FHE.toBytes32 b.totalEncryptedAmount] s.selfAddr ≠ ctx.stateHash
        then .error .stateMismatch
        else if sig requestId cleartexts proof = false then .error .invalidProof
        else .ok ({ s with
          decryptionContexts := store s.decryptionContexts requestId
            (some { ctx with processed := true }) }, cleartexts)) := by
    unfold myCallback
    rw [hctx]
    simp [hproc, hb, hclosed]
  constructor
  · intro hne
    have h1 : myCallback sig s requestId cleartexts proof = .error .stateMismatch := by
      rw [hcb]; simp [hne]
    exact ⟨h1, by simp [exec, step, h1, Except.map]⟩
  · intro s' total hok
    rw [hcb] at hok
    by_cases hh : hashCiphertexts [FHE.toBytes32 b.totalEncryptedAmount] s.selfAddr = ctx.stateHash
    · by_cases hs : sig requestId cleartexts proof = true
      · refine ⟨hh, hs, ?_⟩
        simp [hh, hs] at hok
        rw [← hok.1]
        simp [store_same]
      · simp [hh, Bool.eq_false_iff.mpr hs] at hok
    · simp [hh] at hok

/-! ### C4: decryption requests and their stored context -/

/-- C4: with the system not paused and the caller's decryption-request
cooldown elapsed, `requestBatchTotalDecryption` fails with `InvalidBatch`
(changing no state) when `batchId` does not reference an existing closed
batch, and otherwise stores `DecryptionContext{batchId, stateFingerprint,
processed := false}` under the oracle-supplied `requestId`, where the
fingerprint is `hashCiphertexts` of the batch's aggregate ciphertext
representation together with the contract's own address. -/
theorem requestDecryption_context (sig : Nat → Nat → Nat → Bool) (s : State)
    (sender now batchId requestId : Nat)
    (hp : s.paused = false)
    (hcd : s.lastDecryptionRequestTime sender + s.cooldownSeconds ≤ now) :
    ((∀ b : Batch, s.batches[batchId]? = some b → b.closed = false) →
      requestBatchTotalDecryption s sender now batchId requestId = .error .invalidBatch ∧
      exec sig s (.requestDecryption sender now batchId requestId) = s) ∧
    (∀ b : Batch, s.batches[batchId]? = some b → b.closed = true →
      ∃ s', requestBatchTotalDecryption s sender now batchId requestId = .ok s' ∧
        s'.decryptionContexts requestId =
          some { batchId := batchId,
                 stateHash := hashCiphertexts [FHE.toBytes32 b.totalEncryptedAmount] s.selfAddr,
                 processed := false }) := by
  have hnot : ¬ now < s.lastDecryptionRequestTime sender + s.cooldownSeconds := by omega
  constructor
  · intro hbad
    have h1 : requestBatchTotalDecryption s sender now batchId requestId =
        .error .invalidBatch := by
      unfold requestBatchTotalDecryption
      simp only [hp, hnot, if_false, Bool.false_eq_true]
      cases hget : s.batches[batchId]? with
      | none => simp
      | some b => simp [hbad b hget]
    exact ⟨h1, by simp [exec, step, h1]⟩
  · intro b hbget hbcl
    unfold requestBatchTotalDecryption
    simp only [hp, hnot, if_false, Bool.false_eq_true, hbget, hbcl]
    exact ⟨_, rfl, store_same _ _ _⟩

/-! ### C9: the submission cooldown -/

/-- C9: for an authorized provider with an open latest batch and the
system not paused, a `submitPayment` whose elapsed time since the
provider's last submission-class action is strictly below
`cooldownSeconds` fails with `CooldownActive` and changes no state, and
one whose elapsed time is at least `cooldownSeconds` succeeds and sets the
provider's `lastSubmissionTime` to the current time. -/
theorem submitPayment_cooldown (sig : Nat → Nat → Nat → Bool) (s : State)
    (sender now amount : Nat) (b : Batch)
    (hprov : s.providers sender = true) (hp : s.paused = false)
    (hb : s.batches[s.batches.length - 1]? = some b) (hopen : b.closed = false)
    (hle : s.lastSubmissionTime sender ≤ now) :
    (now - s.lastSubmissionTime sender < s.cooldownSeconds →
      submitPayment s sender now amount = .error .cooldownActive ∧
      exec sig s (.submitPayment sender now amount) = s) ∧
    (s.cooldownSeconds ≤ now - s.lastSubmissionTime sender →
      ∃ s', submitPayment s sender now amount = .ok s' ∧
        s'.lastSubmissionTime sender = now) := by
  constructor
  · intro hlt
    have hcd : now < s.lastSubmissionTime sender + s.cooldownSeconds := by omega
    have h1 : submitPayment s sender now amount = .error .cooldownActive := by
      unfold submitPayment
      simp [hprov, hp, hcd]
    exact ⟨h1, by simp [exec, step, h1]⟩
  · intro hge
    have hcd : ¬ now < s.lastSubmissionTime sender + s.cooldownSeconds := by omega
    unfold submitPayment
    simp only [hprov, hp, hcd, if_false, Bool.false_eq_true, Bool.true_eq_false, hb, hopen]
    exact ⟨_, rfl, store_same _ _ _⟩

/-! ### C8: the pause switch -/

/-- C8 (amended): when `paused = true`, the four externally-gated mutating
entry points `openBatch`, `submitPayment`, `closeBatch` and
`requestBatchTotalDecryption` all fail with `Paused` and change no state
(for the three provider-gated ones the caller must be a provider, since
the `onlyProvider` modifier runs first).  The decryption callback
`myCallback` carries no `whenNotPaused` modifier and is not gated. -/
theorem paused_blocks_mutators (sig : Nat → Nat → Nat → Bool) (s : State)
    (sender now amount batchId requestId : Nat)
    (hp : s.paused = true) (hprov : s.providers sender = true) :
    (openBatch s sender now = .error .paused ∧
      exec sig s (.openBatch sender now) = s) ∧
    (submitPayment s sender now amount = .error .paused ∧
      exec sig s (.submitPayment sender now amount) = s) ∧
    (closeBatch s sender = .error .paused ∧
      exec sig s (.closeBatch sender) = s) ∧
    (requestBatchTotalDecryption s sender now batchId requestId = .error .paused ∧
      exec sig s (.requestDecryption sender now batchId requestId) = s) := by
  have h1 : openBatch s sender now = .error .paused := by
    unfold openBatch; simp [hprov, hp]
  have h2 : submitPayment s sender now amount = .error .paused := by
    unfold submitPayment; simp [hprov, hp]
  have h3 : closeBatch s sender = .error .paused := by
    unfold closeBatch; simp [hprov, hp]
  have h4 : requestBatchTotalDecryption s sender now batchId requestId = .error .paused := by
    unfold requestBatchTotalDecryption; simp [hp]
  exact ⟨⟨h1, by simp [exec, step, h1]⟩, ⟨h2, by simp [exec, step, h2]⟩,
    ⟨h3, by simp [exec, step, h3]⟩, ⟨h4, by simp [exec, step, h4]⟩⟩

/-! ### C7: callbacks for never-stored request ids -/

/-- C7 (amended): the contract declares no `UnknownRequest` error and the
callback does not treat never-stored request ids specially: the mapping
read yields the zero-initialised context `⟨0, 0, false⟩`, so the
invocation fails with `InvalidBatch` when batch `0` is absent or open, and
with `StateMismatch` when batch `0` exists, is closed, and its recomputed
fingerprint differs from the zero default. -/
theorem callback_unknown_request (sig : Nat → Nat → Nat → Bool) (s : State)
    (requestId cleartexts proof : Nat)
    (hnone : s.decryptionContexts requestId = none) :
    ((∀ b : Batch, s.batches[0]? = some b → b.closed = false) →
      myCallback sig s requestId cleartexts proof = .error .invalidBatch ∧
      exec sig s (.callback requestId cleartexts proof) = s) ∧
    (∀ b : Batch, s.batches[0]? = some b → b.closed = true →
      hashCiphertexts [FHE.toBytes32 b.totalEncryptedAmount] s.selfAddr ≠ 0 →
      myCallback sig s requestId cleartexts proof = .error .stateMismatch ∧
      exec sig s (.callback requestId cleartexts proof) = s) := by
  constructor
  · intro hbad
    have h1 : myCallback sig s requestId cleartexts proof = .error .invalidBatch := by
      unfold myCallback
      rw [hnone]
      cases hget : s.batches[0]? with
      | none => simp [hget]
      | some b => simp [hget, hbad b hget]
    exact ⟨h1, by simp [exec, step, h1, Except.map]⟩
  · intro b hbget hbcl hne
    have h1 : myCallback sig s requestId cleartexts proof = .error .stateMismatch := by
      unfold myCallback
      rw [hnone]
      simp [hbget, hbcl, hne]
    exact ⟨h1, by simp [exec, step, h1, Except.map]⟩

/-! ### Frame lemmas: how a transaction can touch the batch list -/

/-- A successful `myCallback` only touches `decryptionContexts`. -/
theorem myCallback_ok_shape (sig : Nat → Nat → Nat → Bool) (s : State)
    (requestId cleartexts proof : Nat) (s' : State) (total : Nat)
    (h : myCallback sig s requestId cleartexts proof = .ok (s', total)) :
    s'.batches = s.batches ∧ s'.selfAddr = s.selfAddr := by
  unfold myCallback at h
  dsimp only at h
  split at h
  · exact absurd h (by simp)
  · split at h
    · exact absurd h (by simp)
    · split at h
      · exact absurd h (by simp)
      · split at h
        · exact absurd h (by simp)
        · split at h
          · exact absurd h (by simp)
          · simp only [Except.ok.injEq, Prod.mk.injEq] at h
            rw [← h.1]
            exact ⟨rfl, rfl⟩


/-- Shape of any successful transaction's effect on the batch list: it is
unchanged, or a fresh open batch is appended, or the last batch — which
must have been open — is overwritten in place. -/
theorem step_ok_shape (sig : Nat → Nat → Nat → Bool) (s : State) (op : Op)
    (s' : State) (h : step sig s op = .ok s') :
    s'.selfAddr = s.selfAddr ∧
    (s'.batches = s.batches ∨
      (∃ nb : Batch, nb.closed = false ∧ s'.batches = s.batches ++ [nb]) ∨
      (∃ b b' : Batch, s.batches[s.batches.length - 1]? = some b ∧ b.closed = false ∧
        s'.batches = s.batches.set (s.batches.length - 1) b')) := by
  cases op with
  | transferOwnership sender newOwner =>
      simp only [step] at h
      unfold transferOwnership at h
      split at h
      · exact absurd h (by simp)
      · simp only [Except.ok.injEq] at h
        rw [← h]
        exact ⟨rfl, Or.inl rfl⟩
  | addProvider sender p =>
      simp only [step] at h
      unfold addProvider at h
      split at h
      · exact absurd h (by simp)
      · simp only [Except.ok.injEq] at h
        rw [← h]
        exact ⟨rfl, Or.inl rfl⟩
  | removeProvider sender p =>
      simp only [step] at h
      unfold removeProvider at h
      split at h
      · exact absurd h (by simp)
      · simp only [Except.ok.injEq] at h
        rw [← h]
        exact ⟨rfl, Or.inl rfl⟩
  | setPaused sender b =>
      simp only [step] at h
      unfold setPaused at h
      split at h
      · exact absurd h (by simp)
      · simp only [Except.ok.injEq] at h
        rw [← h]
        exact ⟨rfl, Or.inl rfl⟩
  | setCooldownSeconds sender v =>
      simp only [step] at h
      unfold setCooldownSeconds at h
      split at h
      · exact absurd h (by simp)
      · simp only [Except.ok.injEq] at h
        rw [← h]
        exact ⟨rfl, Or.inl rfl⟩
  | openBatch sender now =>
      simp only [step] at h
      unfold openBatch at h
      dsimp only at h
      split at h
      · exact absurd h (by simp)
      · split at h
        · exact absurd h (by simp)
        · split at h
          · exact absurd h (by simp)
          · simp only [Except.ok.injEq] at h
            rw [← h]
            exact ⟨rfl, Or.inr (Or.inl ⟨_, rfl, rfl⟩)⟩
  | submitPayment sender now amount =>
      simp only [step] at h
      unfold submitPayment at h
      dsimp only at h
      split at h
      · exact absurd h (by simp)
      · split at h
        · exact absurd h (by simp)
        · split at h
          · exact absurd h (by simp)
          · split at h
            · exact absurd h (by simp)
            · rename_i currentBatch heq
              split at h
              · exact absurd h (by simp)
              · rename_i hcl
                simp only [Except.ok.injEq] at h
                rw [← h]
                exact ⟨rfl, Or.inr (Or.inr ⟨currentBatch, _, heq, by simpa using hcl, rfl⟩)⟩
  | closeBatch sender =>
      simp only [step] at h
      unfold closeBatch at h
      split at h
      · exact absurd h (by simp)
      · split at h
        · exact absurd h (by simp)
        · split at h
          · exact absurd h (by simp)
          · rename_i currentBatch heq
            split at h
            · exact absurd h (by simp)
            · rename_i hcl
              simp only [Except.ok.injEq] at h
              rw [← h]
              exact ⟨rfl, Or.inr (Or.inr ⟨currentBatch, _, heq, by simpa using hcl, rfl⟩)⟩
  | requestDecryption sender now batchId requestId =>
      simp only [step] at h
      unfold requestBatchTotalDecryption at h
      dsimp only at h
      split at h
      · exact absurd h (by simp)
      · split at h
        · exact absurd h (by simp)
        · split at h
          · exact absurd h (by simp)
          · split at h
            · exact absurd h (by simp)
            · simp only [Except.ok.injEq] at h
              rw [← h]
              exact ⟨rfl, Or.inl rfl⟩
  | callback requestId cleartexts proof =>
      simp only [step] at h
      cases hcb : myCallback sig s requestId cleartexts proof with
      | error e => rw [hcb] at h; exact absurd h (by simp [Except.map])
      | ok pr =>
          rw [hcb] at h
          simp only [Except.map, Except.ok.injEq] at h
          have hsh := myCallback_ok_shape sig s requestId cleartexts proof pr.1 pr.2 (by rw [hcb])
          rw [← h]
          exact ⟨hsh.2, Or.inl hsh.1⟩

/-- Any batch that is closed, or that is not in the last position, survives
one transaction unchanged; the batch list never shrinks and `selfAddr`
never changes. -/
theorem exec_frame (sig : Nat → Nat → Nat → Bool) (s : State) (op : Op)
    (i : Nat) (b : Batch) (hb : s.batches[i]? = some b)
    (hside : i + 1 < s.batches.length ∨ b.closed = true) :
    (exec sig s op).batches[i]? = some b ∧
    s.batches.length ≤ (exec sig s op).batches.length ∧
    (exec sig s op).selfAddr = s.selfAddr := by
  have hi : i < s.batches.length := by
    by_contra hni
    push_neg at hni
    rw [List.getElem?_eq_none hni] at hb
    cases hb
  cases hstep : step sig s op with
  | error e =>
      have hexec : exec sig s op = s := by simp [exec, hstep]
      rw [hexec]
      exact ⟨hb, le_refl _, rfl⟩

  | ok s' =>
      have hexec : exec sig s op = s' := by simp [exec, hstep]
      obtain ⟨hself, hcase⟩ := step_ok_shape sig s op s' hstep
      rw [hexec]
      rcases hcase with hsame | ⟨nb, -, happ⟩ | ⟨bl, b', hlast, hblopen, hset⟩
      · rw [hsame]
        exact ⟨hb, le_refl _, hself⟩
      · rw [happ]
        refine ⟨?_, by simp, hself⟩
        rw [List.getElem?_append_left hi]
        exact hb
      · rw [hset]
        have hne : i ≠ s.batches.length - 1 := by
          intro heq
          rcases hside with hlt | hcl
          · omega
          · rw [heq] at hb
            rw [hlast] at hb
            injection hb with hbb
            rw [hbb, hcl] at hblopen
            cases hblopen
        refine ⟨?_, by simp, hself⟩
        rw [List.getElem?_set_ne (by omega)]
        exact hb

/-- `exec_frame`, iterated over a whole transaction sequence. -/
theorem run_frame (sig : Nat → Nat → Nat → Bool) (s : State) (ops : List Op)
    (i : Nat) (b : Batch) (hb : s.batches[i]? = some b)
    (hside : i + 1 < s.batches.length ∨ b.closed = true) :
    (run sig s ops).batches[i]? = some b ∧
    s.batches.length ≤ (run sig s ops).batches.length ∧
    (run sig s ops).selfAddr = s.selfAddr := by
  induction ops generalizing s with
  | nil => exact ⟨hb, le_refl _, rfl⟩
  | cons op ops ih =>
      obtain ⟨hb1, hlen1, hself1⟩ := exec_frame sig s op i b hb hside
      have hside1 : i + 1 < (exec sig s op).batches.length ∨ b.closed = true := by
        rcases hside with hlt | hcl
        · exact Or.inl (by omega)
        · exact Or.inr hcl
      obtain ⟨hb2, hlen2, hself2⟩ := ih (exec sig s op) hb1 hside1
      exact ⟨hb2, le_trans hlen1 hlen2, hself2.trans hself1⟩

/-! ### C5: immutability of closed batches -/

/-- C5: once a batch is closed, no sequence of subsequent operations
(`openBatch`, `submitPayment`, `closeBatch`, decryption requests and
callbacks, or admin operations) ever changes its aggregate ciphertext or
its `closed` flag, and its state fingerprint is stable from that moment
on. -/
theorem closed_batch_immutable (sig : Nat → Nat → Nat → Bool) (s : State)
    (ops : List Op) (i : Nat) (b : Batch)
    (hb : s.batches[i]? = some b) (hc : b.closed = true) :
    (run sig s ops).batches[i]? = some b ∧
    hashCiphertexts [FHE.toBytes32 b.totalEncryptedAmount] (run sig s ops).selfAddr =
      hashCiphertexts [FHE.toBytes32 b.totalEncryptedAmount] s.selfAddr := by
  obtain ⟨hb', -, hself⟩ := run_frame sig s ops i b hb (Or.inr hc)
  exact ⟨hb', by rw [hself]⟩

/-! ### C6: how many batches can be open -/

/-- C6 (amended): only the most recently created batch is ever mutated —
every transaction leaves all batches except the last one unchanged and
never removes batches.  (Several batches may nevertheless be open at the
same time, since `openBatch` appends a fresh open batch without requiring
the previous one to be closed.) -/
theorem only_latest_batch_mutable (sig : Nat → Nat → Nat → Bool) (s : State)
    (op : Op) (i : Nat) (hi : i + 1 < s.batches.length) :
    (exec sig s op).batches[i]? = s.batches[i]? ∧
    s.batches.length ≤ (exec sig s op).batches.length := by
  have hlt : i < s.batches.length := by omega
  obtain ⟨b, hb⟩ : ∃ b, s.batches[i]? = some b :=
    ⟨s.batches[i], List.getElem?_eq_getElem hlt⟩
  obtain ⟨hb', hlen, -⟩ := exec_frame sig s op i b hb (Or.inl hi)
  exact ⟨hb'.trans hb.symm, hlen⟩

/-! ### C10: orphaned open batches are permanently unrevealable -/

/-- C10: a batch that is open but no longer the most recently created one
keeps `closed = false` forever under every sequence of operations, its
aggregate never changes, it never again becomes the latest batch, and —
whenever the system is not paused and the caller's decryption-request
cooldown has elapsed — every `requestBatchTotalDecryption` against it
fails with `InvalidBatch`, so its aggregate is permanently unrevealable. -/
theorem orphaned_batch_unrevealable (sig : Nat → Nat → Nat → Bool) (s : State)
    (ops : List Op) (i : Nat) (b : Batch)
    (hb : s.batches[i]? = some b) (hopen : b.closed = false)
    (hlt : i + 1 < s.batches.length) :
    (run sig s ops).batches[i]? = some b ∧
    i + 1 < (run sig s ops).batches.length ∧
    (∀ sender now requestId,
      (run sig s ops).paused = false →
      (run sig s ops).lastDecryptionRequestTime sender + (run sig s ops).cooldownSeconds ≤ now →
      requestBatchTotalDecryption (run sig s ops) sender now i requestId =
        .error .invalidBatch) := by
  obtain ⟨hb', hlen, -⟩ := run_frame sig s ops i b hb (Or.inl hlt)
  refine ⟨hb', by omega, ?_⟩
  intro sender now requestId hp hcd
  have hnot : ¬ now < (run sig s ops).lastDecryptionRequestTime sender +
      (run sig s ops).cooldownSeconds := by omega
  unfold requestBatchTotalDecryption
  simp [hp, hnot, hb', hopen]

/-! ### C1: the batch aggregate is the order-independent sum -/

theorem add_mod_mod (x y : Nat) : (x + y % M32) % M32 = (x + y) % M32 := by
  conv_lhs => rw [Nat.add_mod]
  conv_rhs => rw [Nat.add_mod]
  rw [Nat.mod_mod_of_dvd y (dvd_refl M32)]

/-- A successful `submitPayment` adds the contribution into the latest
batch's aggregate modulo `2 ^ 32`. -/
theorem submitPayment_ok_total (s : State) (sender now amount : Nat) (s' : State)
    (h : submitPayment s sender now amount = .ok s') :
    lastTotal s' = (lastTotal s + amount) % M32 ∧ lastTotal s' < M32 := by
  unfold submitPayment at h
  dsimp only at h
  split at h
  · exact absurd h (by simp)
  · split at h
    · exact absurd h (by simp)
    · split at h
      · exact absurd h (by simp)
      · split at h
        · exact absurd h (by simp)
        · rename_i currentBatch heq
          split at h
          · exact absurd h (by simp)
          · simp only [Except.ok.injEq] at h
            have hlen : s.batches.length - 1 < s.batches.length := by
              by_contra hn
              push_neg at hn
              rw [List.getElem?_eq_none hn] at heq
              cases heq
            have hget : lastTotal s' = FHE.add currentBatch.totalEncryptedAmount
                (FHE.asEuint32 amount) := by
              rw [← h]
              unfold lastTotal
              simp only [List.length_set]
              rw [List.getElem?_set_eq_of_lt _ hlen]
              rfl
            have hs : lastTotal s = currentBatch.totalEncryptedAmount := by
              unfold lastTotal
              rw [heq]
              rfl
            rw [hget, hs]
            unfold FHE.add FHE.asEuint32
            exact ⟨add_mod_mod _ _, Nat.mod_lt _ (by decide)⟩

/-- A list of `(sender, time, amount)` submissions as transactions. -/
def submitOps (l : List (Nat × Nat × Nat)) : List Op :=
  l.map fun c => Op.submitPayment c.1 c.2.1 c.2.2

/-- Running a sequence of successful submissions accumulates the sum of
the submitted amounts modulo `2 ^ 32` into the latest batch. -/
theorem runE_submits_total (sig : Nat → Nat → Nat → Bool)
    (l : List (Nat × Nat × Nat)) (s s' : State)
    (hlt : lastTotal s < M32)
    (h : runE sig s (submitOps l) = .ok s') :
    lastTotal s' = (lastTotal s + (l.map fun c => c.2.2).sum) % M32 := by
  induction l generalizing s with
  | nil =>
      simp only [submitOps, List.map_nil, runE, List.foldlM_nil] at h
      have hs : s = s' := by
        simpa [pure, Except.pure] using h
      rw [← hs]
      simp [Nat.mod_eq_of_lt hlt]
  | cons c l ih =>
      simp only [submitOps, List.map_cons, runE, List.foldlM_cons] at h
      cases hst : step sig s (Op.submitPayment c.1 c.2.1 c.2.2) with
      | error e =>
          rw [hst] at h
          exact absurd (show (Except.error e : Except Err State) = .ok s' from h) (by simp)
      | ok s1 =>
          rw [hst] at h
          have h2 : runE sig s1 (submitOps l) = .ok s' := h
          simp only [step] at hst
          obtain ⟨ht1, hlt1⟩ := submitPayment_ok_total s c.1 c.2.1 c.2.2 s1 hst
          have h3 := ih s1 hlt1 h2
          rw [h3, ht1, Nat.mod_add_mod, List.map_cons, List.sum_cons, Nat.add_assoc]

/-- C1: for every sequence of successful `submitPayment` transactions into
one open batch whose aggregate starts at encrypted zero, the batch's
aggregate — whose decryption the model reads off directly, homomorphic
addition on `euint32` being modelled as 32-bit integer addition — equals
the sum of the submitted plaintext amounts modulo `2 ^ 32`, and any
permutation of the same amounts that also runs successfully yields the
same aggregate. -/
theorem batch_total_sum_order_independent (sig : Nat → Nat → Nat → Bool)
    (s : State) (l₁ l₂ : List (Nat × Nat × Nat)) (s₁ s₂ : State)
    (h0 : lastTotal s = 0)
    (h1 : runE sig s (submitOps l₁) = .ok s₁)
    (h2 : runE sig s (submitOps l₂) = .ok s₂)
    (hperm : (l₁.map fun c => c.2.2).Perm (l₂.map fun c => c.2.2)) :
    lastTotal s₁ = (l₁.map fun c => c.2.2).sum % M32 ∧
    lastTotal s₁ = lastTotal s₂ := by
  have hlt : lastTotal s < M32 := by
    rw [h0]
    exact Nat.pos_of_ne_zero (by decide)
  have ht1 := runE_submits_total sig l₁ s s₁ hlt h1
  have ht2 := runE_submits_total sig l₂ s s₂ hlt h2
  rw [h0, Nat.zero_add] at ht1 ht2
  exact ⟨ht1, by rw [ht1, ht2, hperm.sum_eq]⟩

/-! ### Concrete scenarios -/

/-- The state of a successful run, with a fallback for failed ones. -/
def okD (r : Except Err State) (d : State) : State :=
  match r with
  | .ok s => s
  | .error _ => d

/-- An oracle verification capability that accepts every proof. -/
def trueSig : Nat → Nat → Nat → Bool := fun _ _ _ => true

/-- Deployer `0`, provider `1`, one batch opened. -/
def openedState : State :=
  run trueSig (initState 0 9) [.addProvider 0 1, .openBatch 1 100]

/-- `openedState` after one accepted payment of `10`. -/
def openOneSubmitState : State :=
  run trueSig (initState 0 9)
    [.addProvider 0 1, .openBatch 1 100, .submitPayment 1 200 10]

/-- One payment of `10` submitted and the batch closed. -/
def closedBatchState : State :=
  run trueSig (initState 0 9)
    [.addProvider 0 1, .openBatch 1 100, .submitPayment 1 200 10, .closeBatch 1]

/-- A full request/callback round, leaving a processed context at id `7`. -/
def processedState : State :=
  run trueSig (initState 0 9)
    [.addProvider 0 1, .openBatch 1 100, .submitPayment 1 200 10, .closeBatch 1,
     .requestDecryption 2 300 0 7, .callback 7 10 0]

/-- A pending decryption request at id `7`, then the system is paused. -/
def pausedPendingState : State :=
  run trueSig (initState 0 9)
    [.addProvider 0 1, .openBatch 1 100, .submitPayment 1 200 10, .closeBatch 1,
     .requestDecryption 2 300 0 7, .setPaused 0 true]

/-- `openBatch` called twice in a row without closing. -/
def doubleOpenOps : List Op := [.addProvider 0 1, .openBatch 1 100, .openBatch 1 200]

/-- The state reached by `doubleOpenOps`. -/
def doubleOpenState : State := run trueSig (initState 0 9) doubleOpenOps

/-- A stored context whose fingerprint (`1`) does not match the batch. -/
def mismatchState : State :=
  { initState 0 9 with
      batches := [{ id := 0, totalEncryptedAmount := 25, closed := true }],
      decryptionContexts := store (fun _ => none) 7
        (some { batchId := 0, stateHash := 1, processed := false }) }

/-! ### Counterexamples -/

/-- C6 counterexample: from the initial state, `openBatch`; `openBatch`
(cooldown respected) reaches a state in which two batches have
`closed = false`, so more than one batch is open at the same time. -/
theorem two_open_batches_reachable :
    ((run trueSig (initState 0 9) doubleOpenOps).batches.filter
      (fun b => !b.closed)).length = 2 := by rfl

/-- C7 counterexample: with no context ever stored for request id `5` and
no batches, the callback fails with `InvalidBatch` — not with any
`UnknownRequest` error, which the contract does not even declare. -/
theorem unknown_request_fails_with_invalidBatch :
    (initState 0 9).decryptionContexts 5 = none ∧
    myCallback trueSig (initState 0 9) 5 0 0 = .error .invalidBatch := ⟨rfl, rfl⟩

/-- C8 counterexample: in a paused state with a pending context, the
decryption callback succeeds — it is not gated by `whenNotPaused`, so it
does not fail with `Paused`. -/
theorem paused_callback_succeeds :
    pausedPendingState.paused = true ∧
    (myCallback trueSig pausedPendingState 7 10 0).isOk = true := ⟨rfl, rfl⟩

/-! ### Witnesses -/

/-- Witness for C1: submitting `10` then `15`, or `15` then `10`, into a
fresh batch both yield aggregate `25`. -/
theorem batch_total_sum_order_independent_witness :
    lastTotal (okD (runE trueSig openedState
        (submitOps [(1, 200, 10), (1, 300, 15)])) (initState 0 9)) =
      ([(1, 200, 10), (1, 300, 15)].map
        (fun c : Nat × Nat × Nat => c.2.2)).sum % M32 ∧
    lastTotal (okD (runE trueSig openedState
        (submitOps [(1, 200, 10), (1, 300, 15)])) (initState 0 9)) =
      lastTotal (okD (runE trueSig openedState
        (submitOps [(1, 200, 15), (1, 300, 10)])) (initState 0 9)) :=
  batch_total_sum_order_independent trueSig openedState
    [(1, 200, 10), (1, 300, 15)] [(1, 200, 15), (1, 300, 10)]
    (okD (runE trueSig openedState (submitOps [(1, 200, 10), (1, 300, 15)])) (initState 0 9))
    (okD (runE trueSig openedState (submitOps [(1, 200, 15), (1, 300, 10)])) (initState 0 9))
    rfl rfl rfl (by decide)

/-- Witness for C2: replaying the already-processed request `7` fails with
`ReplayAttempt` and changes nothing. -/
theorem callback_replay_rejected_witness :
    myCallback trueSig processedState 7 10 0 = .error .replayAttempt ∧
    exec trueSig processedState (.callback 7 10 0) = processedState :=
  callback_replay_rejected trueSig processedState 7 10 0
    ((processedState.decryptionContexts 7).getD { batchId := 0, stateHash := 0, processed := false })
    rfl rfl

/-- Witness for C3: a stored fingerprint `1` differing from the recomputed
one makes the callback fail with `StateMismatch`. -/
theorem callback_state_binding_witness :
    myCallback trueSig mismatchState 7 0 0 = .error .stateMismatch ∧
    exec trueSig mismatchState (.callback 7 0 0) = mismatchState :=
  (callback_state_binding trueSig mismatchState 7 0 0
      { batchId := 0, stateHash := 1, processed := false }
      { id := 0, totalEncryptedAmount := 25, closed := true }
      rfl rfl rfl rfl).1 (by decide)

/-- Witness for C4: requesting decryption of the closed batch `0` stores a
fresh unprocessed context with its fingerprint under request id `7`. -/
theorem requestDecryption_context_witness :
    ∃ s', requestBatchTotalDecryption closedBatchState 2 300 0 7 = .ok s' ∧
      s'.decryptionContexts 7 =
        some { batchId := 0,
               stateHash := hashCiphertexts [FHE.toBytes32 10] 9,
               processed := false } :=
  (requestDecryption_context trueSig closedBatchState 2 300 0 7 rfl (by decide)).2
    { id := 0, totalEncryptedAmount := 10, closed := true } rfl rfl

/-- Witness for C5: the closed batch `0` survives a later `openBatch` and
`submitPayment` unchanged, fingerprint included. -/
theorem closed_batch_immutable_witness :
    (run trueSig closedBatchState [.openBatch 1 400, .submitPayment 1 500 9]).batches[0]? =
      some { id := 0, totalEncryptedAmount := 10, closed := true } ∧
    hashCiphertexts [FHE.toBytes32 10]
        (run trueSig closedBatchState [.openBatch 1 400, .submitPayment 1 500 9]).selfAddr =
      hashCiphertexts [FHE.toBytes32 10] closedBatchState.selfAddr :=
  closed_batch_immutable trueSig closedBatchState [.openBatch 1 400, .submitPayment 1 500 9]
    0 { id := 0, totalEncryptedAmount := 10, closed := true } rfl rfl

/-- Witness for C6 (amended): with two batches present, closing the latest
leaves batch `0` untouched. -/
theorem only_latest_batch_mutable_witness :
    (exec trueSig doubleOpenState (.closeBatch 1)).batches[0]? =
      doubleOpenState.batches[0]? ∧
    doubleOpenState.batches.length ≤
      (exec trueSig doubleOpenState (.closeBatch 1)).batches.length :=
  only_latest_batch_mutable trueSig doubleOpenState (.closeBatch 1) 0 (by decide)

/-- Witness for C7 (amended): an unknown request id on the initial state
fails with `InvalidBatch` and changes nothing. -/
theorem callback_unknown_request_witness :
    myCallback trueSig (initState 0 9) 42 3 4 = .error .invalidBatch ∧
    exec trueSig (initState 0 9) (.callback 42 3 4) = initState 0 9 :=
  (callback_unknown_request trueSig (initState 0 9) 42 3 4 rfl).1
    (fun b hb => by simp [initState] at hb)

/-- Witness for C8 (amended): with the system paused, the four gated entry
points all fail with `Paused` for provider `1` and change nothing. -/
theorem paused_blocks_mutators_witness :
    (openBatch pausedPendingState 1 400 = .error .paused ∧
      exec trueSig pausedPendingState (.openBatch 1 400) = pausedPendingState) ∧
    (submitPayment pausedPendingState 1 400 5 = .error .paused ∧
      exec trueSig pausedPendingState (.submitPayment 1 400 5) = pausedPendingState) ∧
    (closeBatch pausedPendingState 1 = .error .paused ∧
      exec trueSig pausedPendingState (.closeBatch 1) = pausedPendingState) ∧
    (requestBatchTotalDecryption pausedPendingState 1 400 0 8 = .error .paused ∧
      exec trueSig pausedPendingState (.requestDecryption 1 400 0 8) = pausedPendingState) :=
  paused_blocks_mutators trueSig pausedPendingState 1 400 5 0 8 rfl rfl

/-- Witness for C9: after a submission at time `200` with a 60-second
cooldown, a submission at `210` is rejected with `CooldownActive` and one
at `260` succeeds, stamping `lastSubmissionTime` to `260`. -/
theorem submitPayment_cooldown_witness :
    (submitPayment openOneSubmitState 1 210 5 = .error .cooldownActive ∧
      exec trueSig openOneSubmitState (.submitPayment 1 210 5) = openOneSubmitState) ∧
    (∃ s', submitPayment openOneSubmitState 1 260 5 = .ok s' ∧
      s'.lastSubmissionTime 1 = 260) :=
  ⟨(submitPayment_cooldown trueSig openOneSubmitState 1 210 5
      { id := 0, totalEncryptedAmount := 10, closed := false }
      rfl rfl rfl rfl (by decide)).1 (by decide),
   (submitPayment_cooldown trueSig openOneSubmitState 1 260 5
      { id := 0, totalEncryptedAmount := 10, closed := false }
      rfl rfl rfl rfl (by decide)).2 (by decide)⟩

/-- Witness for C10: with batches `0` and `1` both open, closing batch `1`
leaves batch `0` open and a decryption request against it fails with
`InvalidBatch`. -/
theorem orphaned_batch_unrevealable_witness :
    (run trueSig doubleOpenState [.closeBatch 1]).batches[0]? =
      some { id := 0, totalEncryptedAmount := 0, closed := false } ∧
    requestBatchTotalDecryption (run trueSig doubleOpenState [.closeBatch 1]) 2 400 0 11 =
      .error .invalidBatch := by
  have h := orphaned_batch_unrevealable trueSig doubleOpenState [.closeBatch 1] 0
    { id := 0, totalEncryptedAmount := 0, closed := false } rfl rfl (by decide)
  exact ⟨h.1, h.2.2 2 400 11 rfl (by decide)⟩
